import Mathlib

/-!
Verification of the meilisearch index lifecycle manager (`IndexMapper`,
src/index-scheduler/src/index_mapper/mod.rs) and the ranking-rule graph
(`RankingRuleGraph`, src/milli/src/search/new/ranking_rule_graph/mod.rs)
as a shallow embedding in Lean 4.

Modelling decisions:
- the LMDB databases `index_mapping : Database<Str, UuidCodec>` and
  `index_stats : Database<UuidCodec, SerdeJson<IndexStats>>` are modelled as
  total functions `String → Option Nat` and `Nat → Option IndexStats`
  (a UUID is modelled as a `Nat`); `put`, `get`, `delete` are pointwise
  updates, matching LMDB's per-transaction linearizable semantics;
- a write transaction is modelled by threading a `MapperState` value:
  committing returns the updated state, dropping the transaction on an
  error path returns the state the call started from (LMDB rolls back a
  write transaction that is dropped without commit);
- the in-memory `IndexMap` handle cache (module `index_map`, whose source
  file is not part of this tree) is modelled from the spec as a function
  `Nat → IndexStatus`; its operations (`get`, `create`, `start_deletion`,
  reopen after `Closing`) are spec-modelled where marked;
- fallible external effects (`fs::create_dir_all`, environment creation
  inside `IndexMap::create`) are driven by an explicit `ExtEnv` record of
  injected outcomes;
- a Rust panic is modelled as a distinguished result constructor
  (`panicked`), and an out-of-bounds slice index as `Option.none`.
-/

/-- Data of an open index that the statistics are computed from
(the fields read by `IndexStats::new`). -/
structure IndexData where
  number_of_documents : Nat
  database_size : Nat
  field_distribution : List (String × Nat)
  created_at : Int
  updated_at : Int
deriving DecidableEq, Repr

/-- Default data given to a freshly initialized empty index environment. -/
def IndexData.fresh (date : Option (Int × Int)) : IndexData :=
  { number_of_documents := 0
    database_size := 0
    field_distribution := []
    created_at := (date.map Prod.fst).getD 0
    updated_at := (date.map Prod.snd).getD 0 }

/-- An open index handle: its UUID together with the data stored in its
environment. Models `milli::Index`. -/
structure Index where
  uuid : Nat
  data : IndexData
deriving DecidableEq, Repr

/-- The statistics that can be computed from an `Index` object
(struct `IndexStats` in mod.rs). -/
structure IndexStats where
  number_of_documents : Nat
  database_size : Nat
  field_distribution : List (String × Nat)
  created_at : Int
  updated_at : Int
deriving DecidableEq, Repr

/-- Compute the stats of an index (`IndexStats::new`). -/
def IndexStats.new (index : Index) : IndexStats :=
  { number_of_documents := index.data.number_of_documents
    database_size := index.data.database_size
    field_distribution := index.data.field_distribution
    created_at := index.data.created_at
    updated_at := index.data.updated_at }

/-- Status of a handle-cache slot (enum `IndexStatus` in mod.rs).
`closing` carries the index that a successful reopen reinstates. -/
inductive IndexStatus where
  | missing
  | beingDeleted
  | closing (index : Index)
  | available (index : Index)
deriving DecidableEq, Repr

/-- Errors surfaced by the lifecycle manager (crate `Error`; only the
variants reachable from the modelled operations). -/
inductive Error where
  | indexNotFound (name : String)
  | alreadyExists (uuid : Nat)
  | storeError
  | ioError
deriving DecidableEq, Repr

/-- Whole-manager state: the two persistent databases, the in-memory
handle cache, the set of on-disk index directories, and the data an
existing on-disk environment opens with. -/
structure MapperState where
  index_mapping : String → Option Nat
  index_stats : Nat → Option IndexStats
  index_map : Nat → IndexStatus
  dirs : Nat → Bool
  diskData : Nat → IndexData

/-- Injected outcomes of the external fallible effects. -/
structure ExtEnv where
  mkdirOk : Bool
  cacheCreateOk : Bool

/-- LMDB `Database::put` on the name registry. -/
def putMapping (m : String → Option Nat) (name : String) (uuid : Nat) :
    String → Option Nat :=
  fun n => if n = name then some uuid else m n

/-- LMDB `Database::delete` on the name registry; returns whether the key
was present, as the Rust API does. -/
def deleteMapping (m : String → Option Nat) (name : String) :
    Bool × (String → Option Nat) :=
  ((m name).isSome, fun n => if n = name then none else m n)

/-- LMDB `Database::delete` on the stats database. -/
def deleteStats (s : Nat → Option IndexStats) (uuid : Nat) :
    Nat → Option IndexStats :=
  fun u => if u = uuid then none else s u

/-- Modelled from the spec: writing one slot of the in-memory handle
cache (`IndexMap` internal state update; the `index_map` module's source
is not in this tree). -/
def updateSlot (c : Nat → IndexStatus) (uuid : Nat) (st : IndexStatus) :
    Nat → IndexStatus :=
  fun u => if u = uuid then st else c u

/-- Swap two index names (`IndexMapper::swap`). -/
def IndexMapper.swap (st : MapperState) (lhs rhs : String) :
    Except Error MapperState :=
  match st.index_mapping lhs with
  | none => .error (.indexNotFound lhs)
  | some lhs_uuid =>
    match st.index_mapping rhs with
    | none => .error (.indexNotFound rhs)
    | some rhs_uuid =>
      let m1 := putMapping st.index_mapping lhs rhs_uuid
      let m2 := putMapping m1 rhs lhs_uuid
      .ok { st with index_mapping := m2 }

/-- Result of `IndexMapper::index`: a handle, an error, or a panic of the
bounded retry loop. -/
inductive IndexResult where
  | ok (index : Index)
  | err (e : Error)
  | panicked
deriving DecidableEq, Repr

/-- The retry loop of `IndexMapper::index` (mod.rs lines 316-368) in the
sequential model: the cache is observed and updated by this call alone, so
the re-check under the write lock sees the same slot as the read under the
read lock, and a `wait_timeout` on a closing slot succeeds. Modelled from
the spec where the cache is concerned: a successful reopen turns a
`closing` slot into `available` with the carried index, and
`IndexMap::create` on a `missing` slot installs `available` (or fails with
the injected store error). `tries` is the loop counter of the source;
the loop panics when it exceeds 100. -/
def indexLoop (env : ExtEnv) (cache : Nat → IndexStatus) (uuid : Nat)
    (diskData : Nat → IndexData) (name : String) (tries : Nat) :
    IndexResult × (Nat → IndexStatus) :=
  if _h : tries + 1 > 100 then (.panicked, cache)
  else
    match cache uuid with
    | .available i => (.ok i, cache)
    | .closing i =>
      indexLoop env (updateSlot cache uuid (.available i)) uuid diskData
        name (tries + 1)
    | .beingDeleted => (.err (.indexNotFound name), cache)
    | .missing =>
      match cache uuid with
      | .missing =>
        if env.cacheCreateOk then
          let i : Index := ⟨uuid, diskData uuid⟩
          (.ok i, updateSlot cache uuid (.available i))
        else (.err .storeError, cache)
      | .available i => (.ok i, cache)
      | .closing _ =>
        indexLoop env cache uuid diskData name (tries + 1)
      | .beingDeleted => (.err (.indexNotFound name), cache)
termination_by 101 - tries
decreasing_by
  all_goals omega

/-- Return an index, opening it if needed (`IndexMapper::index`,
mod.rs lines 296-371), in the sequential model. -/
def IndexMapper.index (env : ExtEnv) (st : MapperState) (name : String) :
    IndexResult × MapperState :=
  match st.index_mapping name with
  | none => (.err (.indexNotFound name), st)
  | some uuid =>
    let r := indexLoop env st.index_map uuid st.diskData name 0
    (r.1, { st with index_map := r.2 })

/-- Result of `IndexMapper::delete_index`: `spawned` records whether a
background deleter thread was spawned. -/
inductive DeleteResult where
  | ok
  | err (e : Error)
  | panicked
deriving DecidableEq, Repr

/-- Remove an index (`IndexMapper::delete_index`, mod.rs lines 188-265) in
the sequential model. The retry loop is entered with the slot as left by
this same call, so it resolves in at most two attempts: `available` starts
deletion (spawning the deleter thread), `closing` completes the pending
reopen and retries, `missing` returns success with no thread spawned.
Modelled from the spec where the cache is concerned: `start_deletion`
yields those outcomes, and a slot already `beingDeleted` reports vacant.
The Boolean in the result is whether a deleter thread was spawned; the
`assert!` on the registry delete panics if the key vanished. -/
def IndexMapper.delete_index (st : MapperState) (name : String) :
    DeleteResult × MapperState × Bool :=
  match st.index_mapping name with
  | none => (.err (.indexNotFound name), st, false)
  | some uuid =>
    let stats1 := deleteStats st.index_stats uuid
    let d := deleteMapping st.index_mapping name
    if d.1 then
      let st1 : MapperState :=
        { st with index_stats := stats1, index_mapping := d.2 }
      match st1.index_map uuid with
      | .available _ =>
        (.ok, { st1 with index_map := updateSlot st1.index_map uuid .beingDeleted },
          true)
      | .closing i =>
        let c1 := updateSlot st1.index_map uuid (.available i)
        (.ok, { st1 with index_map := updateSlot c1 uuid .beingDeleted }, true)
      | .missing => (.ok, st1, false)
      | .beingDeleted => (.ok, st1, false)
    else (.panicked, st, false)

/-- Check that a name is bound (`IndexMapper::exists`, mod.rs 267-269). -/
def IndexMapper.exists_ (st : MapperState) (name : String) : Bool :=
  (st.index_mapping name).isSome

/-- Check that a name is bound (`IndexMapper::index_exists`,
mod.rs 461-463). -/
def IndexMapper.index_exists (st : MapperState) (name : String) : Bool :=
  (st.index_mapping name).isSome

/-- C1: swapping two distinct bound names exchanges their identifiers,
leaves every other binding unchanged, and leaves the stats database (keyed
by identifier) unchanged. -/
theorem claim_C1_swap (st : MapperState) (lhs rhs : String) (a b : Nat)
    (hne : lhs ≠ rhs)
    (ha : st.index_mapping lhs = some a)
    (hb : st.index_mapping rhs = some b) :
    ∃ st2, IndexMapper.swap st lhs rhs = .ok st2 ∧
      st2.index_mapping lhs = some b ∧
      st2.index_mapping rhs = some a ∧
      (∀ n, n ≠ lhs → n ≠ rhs → st2.index_mapping n = st.index_mapping n) ∧
      st2.index_stats = st.index_stats ∧
      st2.index_map = st.index_map := by
  refine ⟨{ st with index_mapping := putMapping (putMapping st.index_mapping lhs b) rhs a }, ?_, ?_, ?_, ?_, rfl, rfl⟩
  · simp [IndexMapper.swap, ha, hb]
  · simp [putMapping, hne]
  · simp [putMapping]
  · intro n hnl hnr
    simp [putMapping, hnl, hnr]

/-- Witness for C1 at a concrete two-index state. -/
theorem claim_C1_swap_witness :
    ∃ st2,
      IndexMapper.swap
        { index_mapping := fun n => if n = "a" then some 0 else
            if n = "b" then some 1 else none
          index_stats := fun _ => none
          index_map := fun _ => .missing
          dirs := fun _ => false
          diskData := fun _ => IndexData.fresh none } "a" "b" = .ok st2 ∧
      st2.index_mapping "a" = some 1 ∧
      st2.index_mapping "b" = some 0 ∧
      (∀ n, n ≠ "a" → n ≠ "b" →
        st2.index_mapping n =
          (if n = "a" then some 0 else if n = "b" then some 1 else none)) ∧
      st2.index_stats = (fun _ => none) ∧
      st2.index_map = (fun _ => .missing) := by
  exact claim_C1_swap _ "a" "b" 0 1 (by decide) (by simp) (by simp)

/-- Evaluation of the retry loop on an `available` slot: the handle is
returned at once. -/
theorem indexLoop_available (env : ExtEnv) (cache : Nat → IndexStatus)
    (uuid : Nat) (dd : Nat → IndexData) (name : String) (i : Index)
    (h : cache uuid = .available i) :
    indexLoop env cache uuid dd name 0 = (.ok i, cache) := by
  unfold indexLoop
  simp [h]

/-- Evaluation of the retry loop on a `closing` slot: the reopen completes
and the next iteration returns the reinstated handle. -/
theorem indexLoop_closing (env : ExtEnv) (cache : Nat → IndexStatus)
    (uuid : Nat) (dd : Nat → IndexData) (name : String) (i : Index)
    (h : cache uuid = .closing i) :
    indexLoop env cache uuid dd name 0 =
      (.ok i, updateSlot cache uuid (.available i)) := by
  unfold indexLoop
  simp [h]
  unfold indexLoop
  simp [updateSlot]

/-- Evaluation of the retry loop on a `beingDeleted` slot: the loop
returns `IndexNotFound`. -/
theorem indexLoop_beingDeleted (env : ExtEnv) (cache : Nat → IndexStatus)
    (uuid : Nat) (dd : Nat → IndexData) (name : String)
    (h : cache uuid = .beingDeleted) :
    indexLoop env cache uuid dd name 0 =
      (.err (.indexNotFound name), cache) := by
  unfold indexLoop
  simp [h]

/-- Evaluation of the retry loop on a `missing` slot: the index is opened
lazily, or the injected store error is propagated. -/
theorem indexLoop_missing (env : ExtEnv) (cache : Nat → IndexStatus)
    (uuid : Nat) (dd : Nat → IndexData) (name : String)
    (h : cache uuid = .missing) :
    indexLoop env cache uuid dd name 0 =
      (if env.cacheCreateOk then
        (.ok ⟨uuid, dd uuid⟩, updateSlot cache uuid (.available ⟨uuid, dd uuid⟩))
      else (.err .storeError, cache)) := by
  unfold indexLoop
  simp [h]

/-- C2: `index` returns `IndexNotFound(name)` exactly when the name is
unbound in the registry or the name's identifier has a `BeingDeleted`
cache slot (in the sequential model the read-lock observation and the
write-lock re-check coincide); in every other case a handle or a distinct
error is returned. -/
theorem claim_C2_index_not_found_iff (env : ExtEnv) (st : MapperState)
    (name : String) :
    (IndexMapper.index env st name).1 = .err (.indexNotFound name) ↔
      (st.index_mapping name = none ∨
        ∃ uuid, st.index_mapping name = some uuid ∧
          st.index_map uuid = .beingDeleted) := by
  cases hm : st.index_mapping name with
  | none => simp [IndexMapper.index, hm]
  | some uuid =>
    cases hc : st.index_map uuid with
    | available i =>
      simp only [IndexMapper.index, hm, indexLoop_available env _ _ _ _ _ hc]
      constructor
      · intro h
        simp at h
      · rintro (h | ⟨u, hu, hbd⟩)
        · exact Option.noConfusion h
        · injection hu with h2
          subst h2
          simp [hc] at hbd
    | closing i =>
      simp only [IndexMapper.index, hm, indexLoop_closing env _ _ _ _ _ hc]
      constructor
      · intro h
        simp at h
      · rintro (h | ⟨u, hu, hbd⟩)
        · exact Option.noConfusion h
        · injection hu with h2
          subst h2
          simp [hc] at hbd
    | beingDeleted =>
      simp only [IndexMapper.index, hm, indexLoop_beingDeleted env _ _ _ _ hc]
      exact ⟨fun _ => Or.inr ⟨uuid, rfl, hc⟩, fun _ => trivial⟩
    | missing =>
      simp only [IndexMapper.index, hm, indexLoop_missing env _ _ _ _ hc]
      constructor
      · intro h
        cases he : env.cacheCreateOk <;> rw [he] at h <;> simp at h
      · rintro (h | ⟨u, hu, hbd⟩)
        · exact Option.noConfusion h
        · injection hu with h2
          subst h2
          simp [hc] at hbd

/-- C5: deleting a name with no binding fails with `IndexNotFound`, leaves
the whole state (registry, stats database, handle cache, disk) unchanged,
and spawns no deleter thread. -/
theorem claim_C5_delete_unbound (st : MapperState) (name : String)
    (h : st.index_mapping name = none) :
    IndexMapper.delete_index st name = (.err (.indexNotFound name), st, false) := by
  simp [IndexMapper.delete_index, h]

/-- Witness for C5 on a concrete state with no bindings. -/
theorem claim_C5_delete_unbound_witness :
    IndexMapper.delete_index
      { index_mapping := fun _ => none
        index_stats := fun _ => none
        index_map := fun _ => .missing
        dirs := fun _ => false
        diskData := fun _ => IndexData.fresh none } "nope" =
      (.err (.indexNotFound "nope"),
        { index_mapping := fun _ => none
          index_stats := fun _ => none
          index_map := fun _ => .missing
          dirs := fun _ => false
          diskData := fun _ => IndexData.fresh none }, false) :=
  claim_C5_delete_unbound _ "nope" rfl

/-- C10: `exists` and `index_exists` agree on every state and name. -/
theorem claim_C10_exists_eq_index_exists (st : MapperState) (name : String) :
    IndexMapper.exists_ st name = IndexMapper.index_exists st name := rfl

/-- Get or create the index (`IndexMapper::create_index`, mod.rs lines
149-184). The outer match is the source's match on `self.index(&wtxn,
name)`. On the fresh path the registry put is performed in the write
transaction; every error return drops the transaction, so the state it
returns carries the registry as it was before the put (LMDB rollback),
while the in-memory cache mutations of the inner `index` call and a
directory created before a later failure survive (the documented leak). -/
def IndexMapper.create_index (env : ExtEnv) (freshUuid : Nat)
    (st : MapperState) (name : String) (date : Option (Int × Int)) :
    IndexResult × MapperState :=
  match IndexMapper.index env st name with
  | (.ok i, st1) => (.ok i, st1)
  | (.err (.indexNotFound _), st1) =>
    let mapping1 := putMapping st1.index_mapping name freshUuid
    if env.mkdirOk then
      let dirs1 := fun u => if u = freshUuid then true else st1.dirs u
      match st1.index_map freshUuid with
      | .missing =>
        if env.cacheCreateOk then
          let i : Index := ⟨freshUuid, IndexData.fresh date⟩
          (.ok i,
            { index_mapping := mapping1
              index_stats := st1.index_stats
              index_map := updateSlot st1.index_map freshUuid (.available i)
              dirs := dirs1
              diskData := st1.diskData })
        else (.err .storeError, { st1 with dirs := dirs1 })
      | _ => (.err (.alreadyExists freshUuid), { st1 with dirs := dirs1 })
    else (.err .ioError, st1)
  | (.err e, st1) => (.err e, st1)
  | (.panicked, st1) => (.panicked, st1)

/-- C3: when `create_index` on an unbound name fails after the registry
put (directory creation or the cache create fails), the error is
propagated and the registry is exactly as before the call, so the name is
still unbound. -/
theorem claim_C3_create_rollback (env : ExtEnv) (freshUuid : Nat)
    (st : MapperState) (name : String) (date : Option (Int × Int))
    (hname : st.index_mapping name = none)
    (hfail : env.mkdirOk = false ∨
      (st.index_map freshUuid = .missing ∧ env.cacheCreateOk = false)) :
    ∃ e st1, IndexMapper.create_index env freshUuid st name date = (.err e, st1) ∧
      st1.index_mapping = st.index_mapping ∧
      st1.index_mapping name = none := by
  have hidx : IndexMapper.index env st name = (.err (.indexNotFound name), st) := by
    simp [IndexMapper.index, hname]
  rcases hfail with hmk | ⟨hslot, hcc⟩
  · exact ⟨.ioError, st, by simp [IndexMapper.create_index, hidx, hmk], rfl, hname⟩
  · cases hmk : env.mkdirOk with
    | false =>
      exact ⟨.ioError, st, by simp [IndexMapper.create_index, hidx, hmk], rfl, hname⟩
    | true =>
      refine ⟨.storeError,
        { st with dirs := fun u => if u = freshUuid then true else st.dirs u },
        ?_, rfl, hname⟩
      simp [IndexMapper.create_index, hidx, hmk, hslot, hcc]

/-- Witness for C3: creating "books" in the empty state with the
directory creation failing. -/
theorem claim_C3_create_rollback_witness :
    ∃ e st1,
      IndexMapper.create_index ⟨false, true⟩ 5
        { index_mapping := fun _ => none
          index_stats := fun _ => none
          index_map := fun _ => .missing
          dirs := fun _ => false
          diskData := fun _ => IndexData.fresh none } "books" none = (.err e, st1) ∧
      st1.index_mapping = (fun _ => none) ∧
      st1.index_mapping "books" = none :=
  claim_C3_create_rollback ⟨false, true⟩ 5 _ "books" none rfl (Or.inl rfl)

/-- Handle-cache well-formedness: a slot holding a handle holds the
handle of its own identifier. -/
def cacheWF (st : MapperState) : Prop :=
  ∀ u i, (st.index_map u = .available i ∨ st.index_map u = .closing i) →
    i.uuid = u

/-- C7 (amended): for a bound name whose cache slot is not `BeingDeleted`
(and whose lazy open succeeds), `create_index` delegates to `index`,
returns the handle of the existing identifier, leaves every binding
unchanged and creates no directory. -/
theorem claim_C7_create_existing (env : ExtEnv) (freshUuid : Nat)
    (st : MapperState) (name : String) (date : Option (Int × Int)) (uuid0 : Nat)
    (hwf : cacheWF st)
    (hname : st.index_mapping name = some uuid0)
    (hbd : st.index_map uuid0 ≠ .beingDeleted)
    (hcc : env.cacheCreateOk = true) :
    ∃ i st1, IndexMapper.create_index env freshUuid st name date = (.ok i, st1) ∧
      IndexMapper.index env st name = (.ok i, st1) ∧
      i.uuid = uuid0 ∧
      st1.index_mapping = st.index_mapping ∧
      st1.dirs = st.dirs := by
  cases hc : st.index_map uuid0 with
  | beingDeleted => exact absurd hc hbd
  | available i =>
    have hidx : IndexMapper.index env st name =
        (.ok i, { st with index_map := st.index_map }) := by
      simp [IndexMapper.index, hname, indexLoop_available env _ _ _ _ _ hc]
    refine ⟨i, _, ?_, hidx, hwf uuid0 i (Or.inl hc), rfl, rfl⟩
    simp [IndexMapper.create_index, hidx]
  | closing i =>
    have hidx : IndexMapper.index env st name =
        (.ok i, { st with index_map := updateSlot st.index_map uuid0 (.available i) }) := by
      simp [IndexMapper.index, hname, indexLoop_closing env _ _ _ _ _ hc]
    refine ⟨i, _, ?_, hidx, hwf uuid0 i (Or.inr hc), rfl, rfl⟩
    simp [IndexMapper.create_index, hidx]
  | missing =>
    have hidx : IndexMapper.index env st name =
        (.ok ⟨uuid0, st.diskData uuid0⟩,
          { st with index_map :=
              updateSlot st.index_map uuid0 (.available ⟨uuid0, st.diskData uuid0⟩) }) := by
      simp [IndexMapper.index, hname, indexLoop_missing env _ _ _ _ hc, hcc]
    refine ⟨⟨uuid0, st.diskData uuid0⟩, _, ?_, hidx, rfl, rfl, rfl⟩
    simp [IndexMapper.create_index, hidx]

/-- Witness for C7 (amended) at a state where "a" is bound to 0 and the
slot of 0 is available. -/
theorem claim_C7_create_existing_witness :
    ∃ i st1,
      IndexMapper.create_index ⟨true, true⟩ 9
        { index_mapping := fun n => if n = "a" then some 0 else none
          index_stats := fun _ => none
          index_map := fun u =>
            if u = 0 then .available ⟨0, IndexData.fresh none⟩ else .missing
          dirs := fun u => u = 0
          diskData := fun _ => IndexData.fresh none } "a" none = (.ok i, st1) ∧
      IndexMapper.index ⟨true, true⟩
        { index_mapping := fun n => if n = "a" then some 0 else none
          index_stats := fun _ => none
          index_map := fun u =>
            if u = 0 then .available ⟨0, IndexData.fresh none⟩ else .missing
          dirs := fun u => u = 0
          diskData := fun _ => IndexData.fresh none } "a" = (.ok i, st1) ∧
      i.uuid = 0 ∧
      st1.index_mapping = (fun n => if n = "a" then some 0 else none) ∧
      st1.dirs = (fun u => u = 0) := by
  refine claim_C7_create_existing ⟨true, true⟩ 9 _ "a" none 0 ?_ rfl ?_ rfl
  · intro u i h
    by_cases hu : u = 0
    · subst hu
      rcases h with h | h
      · simp at h
        simp [← h]
      · simp at h
    · rcases h with h | h <;> simp [hu] at h
  · simp

/-- C7 counterexample input: "a" is bound to identifier 0, whose cache
slot is `BeingDeleted`. -/
def stBeingDeleted : MapperState :=
  { index_mapping := fun n => if n = "a" then some 0 else none
    index_stats := fun _ => none
    index_map := fun u => if u = 0 then .beingDeleted else .missing
    dirs := fun u => u = 0
    diskData := fun _ => IndexData.fresh none }

/-- C7 counterexample: with "a" bound to 0 but slot 0 `BeingDeleted`,
`create_index` (with fresh identifier 1 drawn) mints the fresh identifier,
rebinds "a" to it and creates a new directory — contradicting the claim
that a bound name always gets its existing identifier back with the
binding untouched. -/
theorem claim_C7_counterexample :
    stBeingDeleted.index_mapping "a" = some 0 ∧
    (IndexMapper.create_index ⟨true, true⟩ 1 stBeingDeleted "a" none).2.index_mapping "a"
      = some 1 ∧
    (IndexMapper.create_index ⟨true, true⟩ 1 stBeingDeleted "a" none).1 =
      .ok ⟨1, IndexData.fresh none⟩ ∧
    (IndexMapper.create_index ⟨true, true⟩ 1 stBeingDeleted "a" none).2.dirs 1 = true ∧
    stBeingDeleted.dirs 1 = false := by
  have hc : stBeingDeleted.index_map 0 = .beingDeleted := rfl
  have hm : stBeingDeleted.index_mapping "a" = some 0 := rfl
  have hidx : IndexMapper.index ⟨true, true⟩ stBeingDeleted "a" =
      (.err (.indexNotFound "a"), stBeingDeleted) := by
    simp [IndexMapper.index, hm,
      indexLoop_beingDeleted ⟨true, true⟩ stBeingDeleted.index_map 0
        stBeingDeleted.diskData "a" hc]
  have hslot : stBeingDeleted.index_map 1 = .missing := rfl
  refine ⟨rfl, ?_, ?_, ?_, rfl⟩ <;>
    simp [IndexMapper.create_index, hidx, hslot, putMapping]

/-- Result of `IndexMapper::stats_of`. -/
inductive StatsResult where
  | ok (stats : IndexStats)
  | err (e : Error)
  | panicked
deriving DecidableEq, Repr

/-- Map the result of opening an index to the result of computing its
stats on the fly (the `None` arm of the match in `stats_of`). -/
def statsOfOpen (r : IndexResult) : StatsResult :=
  match r with
  | .ok i => .ok (IndexStats.new i)
  | .err e => .err e
  | .panicked => .panicked

/-- The stats of an index (`IndexMapper::stats_of`, mod.rs lines
427-441): cached stats are returned as stored; on a miss the index is
opened and fresh stats are computed, with nothing written back (the call
runs under a read transaction; only the in-memory cache can change,
through the inner `index` call). -/
def IndexMapper.stats_of (env : ExtEnv) (st : MapperState)
    (index_uid : String) : StatsResult × MapperState :=
  match st.index_mapping index_uid with
  | none => (.err (.indexNotFound index_uid), st)
  | some uuid =>
    match st.index_stats uuid with
    | some stats => (.ok stats, st)
    | none =>
      let r := IndexMapper.index env st index_uid
      (statsOfOpen r.1, r.2)

/-- C8: `stats_of` never changes the stats database; on a bound name with
no cached record it returns exactly the fresh stats computed from the
opened index (propagating the open's outcome), and on a cached record it
returns the record as stored with the whole state untouched. -/
theorem claim_C8_stats_of (env : ExtEnv) (st : MapperState) (name : String) :
    (IndexMapper.stats_of env st name).2.index_stats = st.index_stats ∧
    (∀ uuid, st.index_mapping name = some uuid →
      (st.index_stats uuid = none →
        IndexMapper.stats_of env st name =
          (statsOfOpen (IndexMapper.index env st name).1,
            (IndexMapper.index env st name).2)) ∧
      (∀ s, st.index_stats uuid = some s →
        IndexMapper.stats_of env st name = (.ok s, st))) := by
  constructor
  · cases hm : st.index_mapping name with
    | none => simp [IndexMapper.stats_of, hm]
    | some uuid =>
      cases hs : st.index_stats uuid with
      | some s => simp [IndexMapper.stats_of, hm, hs]
      | none =>
        simp only [IndexMapper.stats_of, hm, hs]
        simp [IndexMapper.index]
        cases hm2 : st.index_mapping name with
        | none => simp
        | some u2 => simp
  · intro uuid hm
    constructor
    · intro hs
      simp [IndexMapper.stats_of, hm, hs]
    · intro s hs
      simp [IndexMapper.stats_of, hm, hs]

/-- Witness for C8 at a state where "a" is bound to 0 with no cached
stats and an available handle: the returned stats are the fresh ones of
the open handle and the stats database is untouched. -/
theorem claim_C8_stats_of_witness :
    (IndexMapper.stats_of ⟨true, true⟩
      { index_mapping := fun n => if n = "a" then some 0 else none
        index_stats := fun _ => none
        index_map := fun u =>
          if u = 0 then .available ⟨0, IndexData.fresh none⟩ else .missing
        dirs := fun u => u = 0
        diskData := fun _ => IndexData.fresh none } "a").2.index_stats =
      (fun _ => none) ∧
    IndexMapper.stats_of ⟨true, true⟩
      { index_mapping := fun n => if n = "a" then some 0 else none
        index_stats := fun _ => none
        index_map := fun u =>
          if u = 0 then .available ⟨0, IndexData.fresh none⟩ else .missing
        dirs := fun u => u = 0
        diskData := fun _ => IndexData.fresh none } "a" =
      (statsOfOpen (IndexMapper.index ⟨true, true⟩
        { index_mapping := fun n => if n = "a" then some 0 else none
          index_stats := fun _ => none
          index_map := fun u =>
            if u = 0 then .available ⟨0, IndexData.fresh none⟩ else .missing
          dirs := fun u => u = 0
          diskData := fun _ => IndexData.fresh none } "a").1,
        (IndexMapper.index ⟨true, true⟩
          { index_mapping := fun n => if n = "a" then some 0 else none
            index_stats := fun _ => none
            index_map := fun u =>
              if u = 0 then .available ⟨0, IndexData.fresh none⟩ else .missing
            dirs := fun u => u = 0
            diskData := fun _ => IndexData.fresh none } "a").2) :=
  ⟨(claim_C8_stats_of ⟨true, true⟩ _ "a").1,
    ((claim_C8_stats_of ⟨true, true⟩ _ "a").2 0 rfl).1 rfl⟩

/-- What one iteration of the retry loop of `IndexMapper::index` can
observe under arbitrary concurrent interference: the slot under the read
lock, the slot at the re-check under the write lock, whether a
`wait_timeout` on a closing slot succeeded, and whether the reopen and the
lazy create succeeded. -/
structure IterObs where
  first : IndexStatus
  second : IndexStatus
  waitOk : Bool
  reopenOk : Bool
  createOk : Bool

/-- The retry loop of `IndexMapper::index` (mod.rs lines 316-368) against
an adversarial observation sequence, returning the result together with
the number of loop-body iterations performed. The counter `tries` is
incremented on entry and the loop panics when it exceeds 100; a timed-out
wait and a closing slot at the re-check go round the loop again. -/
def indexRetryLoop (obs : Nat → IterObs) (name : String) (uuid : Nat)
    (dd : Nat → IndexData) (tries : Nat) : IndexResult × Nat :=
  if _h : tries + 1 > 100 then (.panicked, tries)
  else
    let o := obs (tries + 1)
    match o.first with
    | .available i => (.ok i, tries + 1)
    | .closing i =>
      if o.waitOk then
        if o.reopenOk then indexRetryLoop obs name uuid dd (tries + 1)
        else (.err .storeError, tries + 1)
      else indexRetryLoop obs name uuid dd (tries + 1)
    | .beingDeleted => (.err (.indexNotFound name), tries + 1)
    | .missing =>
      match o.second with
      | .missing =>
        if o.createOk then (.ok ⟨uuid, dd uuid⟩, tries + 1)
        else (.err .storeError, tries + 1)
      | .available i => (.ok i, tries + 1)
      | .closing _ => indexRetryLoop obs name uuid dd (tries + 1)
      | .beingDeleted => (.err (.indexNotFound name), tries + 1)
termination_by 101 - tries
decreasing_by
  all_goals omega

/-- Outcome of one `start_deletion` attempt as observed by the retry loop
of `delete_index` under arbitrary concurrent interference. -/
inductive StartOutcome where
  | ok (hasClosingSignal : Bool)
  | busy (waitOk : Bool)
  | vacant

/-- The retry loop of `IndexMapper::delete_index` (mod.rs lines 216-237)
against an adversarial sequence of `start_deletion` outcomes, returning
the result and the number of `start_deletion` attempts made. `tries` is
incremented only on a busy (closing) slot and the loop panics when it
reaches 100; at every entry `tries` equals the attempts already made, so
the single counter plays both roles. -/
def deleteRetryLoop (obs : Nat → StartOutcome) (tries : Nat) :
    DeleteResult × Nat :=
  match obs tries with
  | .ok _ => (.ok, tries + 1)
  | .vacant => (.ok, tries + 1)
  | .busy _ =>
    if _h : tries + 1 ≥ 100 then (.panicked, tries + 1)
    else deleteRetryLoop obs (tries + 1)
termination_by 100 - tries
decreasing_by
  all_goals omega

/-- Bound on the iteration count of the `index` retry loop, for every
starting value of the counter that the bound allows. -/
theorem indexRetryLoop_count_le (obs : Nat → IterObs) (name : String)
    (uuid : Nat) (dd : Nat → IndexData) :
    ∀ n tries, tries + n = 100 →
      (indexRetryLoop obs name uuid dd tries).2 ≤ 100 := by
  intro n
  induction n with
  | zero =>
    intro tries h
    unfold indexRetryLoop
    rw [dif_pos (by omega)]
    show tries ≤ 100
    omega
  | succ k ih =>
    intro tries h
    unfold indexRetryLoop
    rw [dif_neg (by omega)]
    rcases ho : obs (tries + 1) with ⟨f, s, w, r, c⟩
    cases f with
    | available i =>
      show tries + 1 ≤ 100
      omega
    | beingDeleted =>
      show tries + 1 ≤ 100
      omega
    | closing i =>
      cases w with
      | false => exact ih (tries + 1) (by omega)
      | true =>
        cases r with
        | false =>
          show tries + 1 ≤ 100
          omega
        | true => exact ih (tries + 1) (by omega)
    | missing =>
      cases s with
      | available i =>
        show tries + 1 ≤ 100
        omega
      | beingDeleted =>
        show tries + 1 ≤ 100
        omega
      | closing i => exact ih (tries + 1) (by omega)
      | missing =>
        cases c with
        | false =>
          show tries + 1 ≤ 100
          omega
        | true =>
          show tries + 1 ≤ 100
          omega

/-- Bound on the attempt count of the `delete_index` retry loop, for
every starting value of the counter that the bound allows. -/
theorem deleteRetryLoop_count_le (obs : Nat → StartOutcome) :
    ∀ n tries, tries + n = 99 → (deleteRetryLoop obs tries).2 ≤ 100 := by
  intro n
  induction n with
  | zero =>
    intro tries h
    unfold deleteRetryLoop
    cases ho : obs tries with
    | ok s =>
      show tries + 1 ≤ 100
      omega
    | vacant =>
      show tries + 1 ≤ 100
      omega
    | busy w =>
      show (if _h : tries + 1 ≥ 100 then ((DeleteResult.panicked : DeleteResult), tries + 1)
        else deleteRetryLoop obs (tries + 1)).2 ≤ 100
      rw [dif_pos (by omega)]
      show tries + 1 ≤ 100
      omega
  | succ k ih =>
    intro tries h
    unfold deleteRetryLoop
    cases ho : obs tries with
    | ok s =>
      show tries + 1 ≤ 100
      omega
    | vacant =>
      show tries + 1 ≤ 100
      omega
    | busy w =>
      show (if _h : tries + 1 ≥ 100 then ((DeleteResult.panicked : DeleteResult), tries + 1)
        else deleteRetryLoop obs (tries + 1)).2 ≤ 100
      rw [dif_neg (by omega)]
      exact ih (tries + 1) (by omega)

/-- C6: under every possible interleaving of observations, the retry
loop of `index` performs at most 100 iterations (panicking rather than
iterating further) and the retry loop of `delete_index` makes at most 100
`start_deletion` attempts (panicking on the 100th busy attempt); both are
total functions, so every execution returns a result, exits early, or
panics within that budget. -/
theorem claim_C6_retry_loops_bounded (name : String) (uuid : Nat)
    (dd : Nat → IndexData) :
    (∀ obs, (indexRetryLoop obs name uuid dd 0).2 ≤ 100) ∧
    (∀ obs, (deleteRetryLoop obs 0).2 ≤ 100) :=
  ⟨fun obs => indexRetryLoop_count_le obs name uuid dd 100 0 rfl,
   fun obs => deleteRetryLoop_count_le obs 99 0 rfl⟩

/-- Condition attached to a ranking-rule graph edge (enum `EdgeCondition`
in ranking_rule_graph/mod.rs); a conditional edge carries the interned id
of its condition. -/
inductive EdgeCondition where
  | unconditional
  | conditional (conditionId : Nat)
deriving DecidableEq, Repr

/-- An edge in the ranking rule graph (struct `Edge`). -/
structure Edge where
  source_node : Nat
  dest_node : Nat
  cost : Nat
  condition : EdgeCondition
deriving DecidableEq, Repr

/-- Modelled from the spec: a `SmallBitmap` (the small_bitmap module's
source is not in this tree) is a compact set of 16-bit ids, here the list
of ids it contains. -/
abbrev SmallBitmap := List Nat

/-- Modelled from the spec: `SmallBitmap::remove` clears one id from the
set. -/
def SmallBitmap.remove (bm : SmallBitmap) (e : Nat) : SmallBitmap :=
  bm.filter (fun x => x ≠ e)

/-- The graph used by graph-based ranking rules (struct
`RankingRuleGraph`); the `query_graph` and `conditions_interner` fields
are carried by the Rust struct but neither read nor written by
`remove_ranking_rule_edge`, so they are omitted here. -/
structure RankingRuleGraph where
  edges_store : List (Option Edge)
  edges_of_node : List SmallBitmap
deriving DecidableEq, Repr

/-- Remove the given edge from the ranking rule graph
(`RankingRuleGraph::remove_ranking_rule_edge`, ranking_rule_graph/mod.rs
lines 137-144). Rust's `self.edges_store[edge_index as usize]` and
`self.edges_of_node[source_node as usize]` panic when out of bounds; a
panic is modelled as `none`. An already-absent slot returns early. -/
def RankingRuleGraph.remove_ranking_rule_edge (g : RankingRuleGraph)
    (edge_index : Nat) : Option RankingRuleGraph :=
  match g.edges_store[edge_index]? with
  | none => none
  | some none => some g
  | some (some edge) =>
    let store1 := g.edges_store.set edge_index none
    match g.edges_of_node[edge.source_node]? with
    | none => none
    | some bm =>
      some { edges_store := store1
             edges_of_node :=
               g.edges_of_node.set edge.source_node (bm.remove edge_index) }

/-- The slot of edge id `e` holds an edge whose source node is `s`. -/
abbrev edgePresentWithSource (g : RankingRuleGraph) (e s : Nat) : Prop :=
  ∃ edge : Edge, g.edges_store[e]? = some (some edge) ∧ edge.source_node = s

/-- Every present edge's source node has an outgoing-edge bitmap. -/
abbrev sourcesInBounds (g : RankingRuleGraph) : Prop :=
  ∀ (e : Nat) (edge : Edge), g.edges_store[e]? = some (some edge) →
    edge.source_node < g.edges_of_node.length

/-- The graph invariant: an edge id belongs to the outgoing bitmap of a
node exactly when its slot holds an edge with that source node. -/
abbrev edgeInv (g : RankingRuleGraph) : Prop :=
  ∀ e s : Nat, e ∈ g.edges_of_node.getD s [] ↔ edgePresentWithSource g e s

/-- C4: on a well-formed graph and an in-bounds edge id, removal never
panics; a `None` slot is left untouched (idempotence); and removing a
present edge empties its slot, clears it from its source node's bitmap,
and preserves the graph invariant for the remaining edges. -/
theorem claim_C4_remove_edge (g : RankingRuleGraph) (e : Nat)
    (hwb : sourcesInBounds g) (hinv : edgeInv g)
    (hlen : e < g.edges_store.length) :
    (∃ g2, g.remove_ranking_rule_edge e = some g2) ∧
    (g.edges_store[e]? = some none → g.remove_ranking_rule_edge e = some g) ∧
    (∀ edge, g.edges_store[e]? = some (some edge) →
      ∃ g2, g.remove_ranking_rule_edge e = some g2 ∧
        g2.edges_store[e]? = some none ∧
        e ∉ g2.edges_of_node.getD edge.source_node [] ∧
        sourcesInBounds g2 ∧
        edgeInv g2) := by
  have hmain : ∀ edge : Edge, g.edges_store[e]? = some (some edge) →
      ∃ g2, g.remove_ranking_rule_edge e = some g2 ∧
        g2.edges_store[e]? = some none ∧
        e ∉ g2.edges_of_node.getD edge.source_node [] ∧
        sourcesInBounds g2 ∧
        edgeInv g2 := by
    intro edge hst
    have hsrc : edge.source_node < g.edges_of_node.length := hwb e edge hst
    obtain ⟨bm, hbm⟩ : ∃ bm, g.edges_of_node[edge.source_node]? = some bm :=
      ⟨_, List.getElem?_eq_getElem hsrc⟩
    refine ⟨{ edges_store := g.edges_store.set e none,
              edges_of_node :=
                g.edges_of_node.set edge.source_node (bm.remove e) }, ?_, ?_, ?_, ?_, ?_⟩
    · simp only [RankingRuleGraph.remove_ranking_rule_edge, hst, hbm]
    · exact List.getElem?_set_self hlen
    · rw [List.getD_eq_getElem?_getD, List.getElem?_set_self hsrc,
        Option.getD_some]
      simp [SmallBitmap.remove, List.mem_filter]
    · intro e2 edge2 h2
      rw [List.length_set]
      by_cases he : e2 = e
      · subst he
        rw [List.getElem?_set_self hlen] at h2
        simp at h2
      · rw [List.getElem?_set_ne (by omega)] at h2
        exact hwb e2 edge2 h2
    · intro e2 s
      by_cases hs : s = edge.source_node
      · subst hs
        rw [List.getD_eq_getElem?_getD, List.getElem?_set_self hsrc,
          Option.getD_some]
        by_cases he : e2 = e
        · subst he
          simp only [SmallBitmap.remove, List.mem_filter]
          constructor
          · rintro ⟨-, hcontra⟩
            simp at hcontra
          · rintro ⟨edge2, hst2, -⟩
            rw [List.getElem?_set_self hlen] at hst2
            simp at hst2
        · have hmem : e2 ∈ bm.remove e ↔ e2 ∈ bm := by
            simp [SmallBitmap.remove, List.mem_filter, he]
          have hg : e2 ∈ bm ↔ edgePresentWithSource g e2 edge.source_node := by
            have h3 := hinv e2 edge.source_node
            rwa [List.getD_eq_getElem?_getD, hbm, Option.getD_some] at h3
          rw [hmem, hg]
          constructor
          · rintro ⟨edge2, hst2, hsrc2⟩
            refine ⟨edge2, ?_, hsrc2⟩
            rw [List.getElem?_set_ne (by omega : e ≠ e2)]
            exact hst2
          · rintro ⟨edge2, hst2, hsrc2⟩
            rw [List.getElem?_set_ne (by omega : e ≠ e2)] at hst2
            exact ⟨edge2, hst2, hsrc2⟩
      · rw [List.getD_eq_getElem?_getD,
          List.getElem?_set_ne (by omega : edge.source_node ≠ s),
          ← List.getD_eq_getElem?_getD, hinv e2 s]
        by_cases he : e2 = e
        · subst he
          constructor
          · rintro ⟨edge2, hst2, hsrc2⟩
            rw [hst] at hst2
            obtain rfl : edge = edge2 := by
              injection hst2 with h3
              injection h3
            exact absurd hsrc2.symm hs
          · rintro ⟨edge2, hst2, -⟩
            rw [List.getElem?_set_self hlen] at hst2
            simp at hst2
        · constructor
          · rintro ⟨edge2, hst2, hsrc2⟩
            refine ⟨edge2, ?_, hsrc2⟩
            rw [List.getElem?_set_ne (by omega : e ≠ e2)]
            exact hst2
          · rintro ⟨edge2, hst2, hsrc2⟩
            rw [List.getElem?_set_ne (by omega : e ≠ e2)] at hst2
            exact ⟨edge2, hst2, hsrc2⟩
  refine ⟨?_, ?_, hmain⟩
  · obtain ⟨edgeOpt, hopt⟩ : ∃ x, g.edges_store[e]? = some x :=
      ⟨_, List.getElem?_eq_getElem hlen⟩
    cases edgeOpt with
    | none => exact ⟨g, by simp [RankingRuleGraph.remove_ranking_rule_edge, hopt]⟩
    | some edge =>
      obtain ⟨g2, hg2, -⟩ := hmain edge hopt
      exact ⟨g2, hg2⟩
  · intro hnone
    simp [RankingRuleGraph.remove_ranking_rule_edge, hnone]

/-- Concrete edge used by the C4 witness graph. -/
def E0W : Edge := ⟨0, 1, 1, .unconditional⟩

/-- Concrete witness graph: edge 0 present from node 0 to node 1, slot 1
already empty. -/
def gW : RankingRuleGraph := ⟨[some E0W, none], [[0], []]⟩

/-- The witness graph satisfies `sourcesInBounds`. -/
theorem gW_sourcesInBounds : sourcesInBounds gW := by
  intro e2 edge h
  rcases e2 with _ | _ | n
  · simp [gW] at h
    subst h
    decide
  · simp [gW] at h
  · simp [gW] at h

/-- The witness graph satisfies the edge invariant. -/
theorem gW_edgeInv : edgeInv gW := by
  intro e2 s
  constructor
  · intro hm
    rcases s with _ | _ | m
    · simp [gW] at hm
      subst hm
      exact ⟨E0W, rfl, rfl⟩
    · simp [gW] at hm
    · simp [gW] at hm
  · rintro ⟨edge, hst, hsrc⟩
    rcases e2 with _ | _ | n
    · simp [gW] at hst
      subst hst
      simp [E0W] at hsrc
      subst hsrc
      simp [gW]
    · simp [gW] at hst
    · simp [gW] at hst

/-- Witness for C4: removing the present edge 0 of the witness graph
empties its slot, clears it from node 0's bitmap and preserves the
invariant. -/
theorem claim_C4_remove_edge_witness :
    ∃ g2, RankingRuleGraph.remove_ranking_rule_edge gW 0 = some g2 ∧
      g2.edges_store[0]? = some none ∧
      0 ∉ g2.edges_of_node.getD E0W.source_node [] ∧
      sourcesInBounds g2 ∧
      edgeInv g2 :=
  (claim_C4_remove_edge gW 0 gW_sourcesInBounds gW_edgeInv (by decide)).2.2 E0W rfl

/-- C9: `remove_ranking_rule_edge` panics (modelled as `none`) on every
edge id at or past the end of `edges_store`; it is not total in its
edge-id argument. -/
theorem claim_C9_remove_edge_oob (g : RankingRuleGraph) (e : Nat)
    (h : g.edges_store.length ≤ e) :
    g.remove_ranking_rule_edge e = none := by
  have hn : g.edges_store[e]? = none := by
    rw [List.getElem?_eq_none h]
  simp [RankingRuleGraph.remove_ranking_rule_edge, hn]

/-- Witness for C9: removing edge 0 from the empty graph panics. -/
theorem claim_C9_remove_edge_oob_witness :
    RankingRuleGraph.remove_ranking_rule_edge ⟨[], []⟩ 0 = none ∧
    (⟨[], []⟩ : RankingRuleGraph).edges_store.length ≤ 0 :=
  ⟨claim_C9_remove_edge_oob ⟨[], []⟩ 0 (by decide), by decide⟩
